import Mathlib

/-!
Verification development for the `udemy_section_name_extractor` program
(`udemy_section_name_extractor/main.py`): a single-pass HTML-to-text
transformer that loads one HTML file, finds every `div` whose
`data-purpose` attribute is `"section-heading"`, derives a
`(title, duration)` pair for each via fallback lookups, and writes the
pairs to a file.

The document tree produced by the HTML parser is embedded as the
inductive type `Node`; element lookups (`find`, `find_all`, `find_next`
in document order), text collection (`get_text(strip=True)`), the
whitespace collapse (`re.sub` of whitespace runs), the `str.replace`
rewrite of section titles, the pipe-splitting duration fallback, the
path joining (`os.path.join` POSIX semantics), and the writers are all
translated directly from the source.  The file system is modelled as an
association list from path to contents, and the HTML parser itself
(`BeautifulSoup`, an external library) is a parameter of the modelled
entry point.  Character classes (`\s` of `re`, `str.strip`) are modelled
on their ASCII fragment, which covers every character class the program
distinguishes.
-/

/-- Whitespace test matching the ASCII fragment of Python's `\s` regex
class and of `str.strip()`: space, tab, newline, carriage return,
vertical tab and form feed. -/
def isPySpace (c : Char) : Bool :=
  c == ' ' || c == '\t' || c == '\n' || c == '\r' || c == '\x0b' || c == '\x0c'

/-- Python `str.strip()`: remove leading and trailing whitespace. -/
def pyStrip (s : String) : String :=
  ⟨((s.data.dropWhile isPySpace).reverse.dropWhile isPySpace).reverse⟩

/-- Scanner for `transform_spaces`, the Python `re.sub(r'\s+', ' ', text)`
in `HTMLSectionExtractor.transform_spaces`: the flag records whether the
scanner is inside a whitespace run whose single replacement space has
already been emitted. -/
def collapseAux : Bool → List Char → List Char
  | _, [] => []
  | inRun, c :: cs =>
    if isPySpace c then
      if inRun then collapseAux true cs else ' ' :: collapseAux true cs
    else c :: collapseAux false cs

/-- The `transform_spaces` method: every maximal run of one-or-more
whitespace characters becomes exactly one ASCII space. -/
def transform_spaces (s : String) : String :=
  ⟨collapseAux false s.data⟩

/-- Reference formulation of the whitespace collapse, written directly
from its description: each maximal run of whitespace becomes one ASCII
space, every other character is kept, nothing is trimmed. -/
def collapseSpec : List Char → List Char
  | [] => []
  | c :: cs =>
    if isPySpace c then ' ' :: collapseSpec (cs.dropWhile isPySpace)
    else c :: collapseSpec cs
termination_by l => l.length
decreasing_by
  · exact Nat.lt_succ_of_le (List.dropWhile_sublist isPySpace).length_le
  · exact Nat.lt_succ_of_le (Nat.le_refl _)

/-- A character list is in collapsed form when every whitespace
character in it is the ASCII space and no two adjacent characters are
both whitespace; `collapseAux` produces exactly such lists and is the
identity on them. -/
def normedChars : List Char → Bool
  | [] => true
  | [c] => !isPySpace c || c == ' '
  | c :: d :: t => (!isPySpace c || (c == ' ' && !isPySpace d)) && normedChars (d :: t)

/-- Fuelled scanner for Python `str.replace(pat, repl)`: scan left to
right, replacing every non-overlapping occurrence of `pat`; the fuel is
an upper bound on the remaining length, so the exhaustion branch is
never reached from `replaceAllL`. -/
def replaceAllFuel (pat repl : List Char) : Nat → List Char → List Char
  | _, [] => []
  | 0, l => l
  | Nat.succ fuel, c :: cs =>
    if pat.isPrefixOf (c :: cs) && !pat.isEmpty then
      repl ++ replaceAllFuel pat repl fuel (cs.drop (pat.length - 1))
    else c :: replaceAllFuel pat repl fuel cs

/-- Python `str.replace(pat, repl)` on character lists (the program only
uses a non-empty pattern; an empty pattern leaves the string unchanged
here). -/
def replaceAllL (pat repl l : List Char) : List Char :=
  replaceAllFuel pat repl l.length l

/-- Python `str.replace` on strings. -/
def pyReplace (s pat repl : String) : String :=
  ⟨replaceAllL pat.data repl.data s.data⟩

/-- A node of the parsed HTML document: either a text node or an element
with a tag name, an attribute association list, and children.  The whole
document is represented by a synthetic root element (BeautifulSoup's
document object) whose children are the top-level nodes. -/
inductive Node where
  | text : String → Node
  | elem : String → List (String × String) → List Node → Node

mutual

/-- Document-order (pre-order) traversal of a subtree: the node itself,
then the children's traversals in order. -/
def preorder : Node → List Node
  | .text s => [.text s]
  | .elem t a cs => .elem t a cs :: preorderList cs
termination_by structural n => n

/-- Document-order traversal of a list of sibling subtrees. -/
def preorderList : List Node → List Node
  | [] => []
  | n :: ns => preorder n ++ preorderList ns
termination_by structural l => l

end

/-- All strict descendants of a node in document order; BeautifulSoup's
`find` and `find_all` on an element search exactly these. -/
def descendants : Node → List Node
  | .text _ => []
  | .elem _ _ cs => preorderList cs

/-- Value of an attribute, if present (first binding wins). -/
def attrValue (n : Node) (key : String) : Option String :=
  match n with
  | .text _ => none
  | .elem _ attrs _ => ((attrs.find? (fun kv => kv.1 == key)).map (fun kv => kv.2))

/-- Tag-name test; text nodes match no tag. -/
def tagIs (n : Node) (t : String) : Bool :=
  match n with
  | .text _ => false
  | .elem tag _ _ => tag == t

/-- Word scanner for `pyWords`; the accumulator holds the current word
reversed. -/
def pyWordsAux : List Char → List Char → List String
  | acc, [] => if acc.isEmpty then [] else [⟨acc.reverse⟩]
  | acc, c :: cs =>
    if isPySpace c then
      if acc.isEmpty then pyWordsAux [] cs else ⟨acc.reverse⟩ :: pyWordsAux [] cs
    else pyWordsAux (c :: acc) cs

/-- Python `str.split()` with no argument: the maximal non-whitespace
words of the string, used for the multi-valued `class` attribute. -/
def pyWords (s : String) : List String :=
  pyWordsAux [] s.data

/-- BeautifulSoup `class_=c` matching: the `class` attribute, split into
words, contains `c`. -/
def hasClass (n : Node) (c : String) : Bool :=
  match attrValue n "class" with
  | some v => (pyWords v).contains c
  | none => false

/-- Matcher for `div` elements with `data-purpose="section-heading"`. -/
def isHeading (n : Node) : Bool :=
  tagIs n "div" && attrValue n "data-purpose" == some "section-heading"

/-- Matcher for `div` elements with `data-purpose="section-duration"`. -/
def isDurationDiv (n : Node) : Bool :=
  tagIs n "div" && attrValue n "data-purpose" == some "section-duration"

/-- Matcher for `span` elements with
`data-purpose="section-duration-sr-only"`. -/
def isSrSpan (n : Node) : Bool :=
  tagIs n "span" && attrValue n "data-purpose" == some "section-duration-sr-only"

/-- Matcher for `span` elements with `aria-hidden="true"`. -/
def isHiddenSpan (n : Node) : Bool :=
  tagIs n "span" && attrValue n "aria-hidden" == some "true"

/-- Matcher for `span` elements carrying the truncation/tooltip class
`TRUNCATE_CLASS` that marks the section title. -/
def isTitleSpan (n : Node) : Bool :=
  tagIs n "span" && hasClass n "truncate-with-tooltip--ellipsis--YJw4N"

/-- Matcher for any `span` element, as in `sr_span.find_all("span")`. -/
def isSpanTag (n : Node) : Bool :=
  tagIs n "span"

/-- Concatenation of a list of strings (no separator). -/
def concatStrings : List String → String
  | [] => ""
  | s :: rest => s ++ concatStrings rest

/-- The text fragments of a subtree in document order. -/
def nodeTexts (n : Node) : List String :=
  (preorder n).filterMap (fun m =>
    match m with
    | .text s => some s
    | .elem _ _ _ => none)

/-- BeautifulSoup `get_text(strip=True)`: each descendant text fragment
is stripped, empty results are skipped, and the survivors are joined
with no separator. -/
def getTextStrip (n : Node) : String :=
  concatStrings (((nodeTexts n).map pyStrip).filter (fun s => !(s == "")))

/-- The substring after the last `'|'` of the string (the whole string
when no pipe is present); this is Python's `text.split('|')[-1]`. -/
def afterLastPipe (s : String) : String :=
  ⟨(s.data.reverse.takeWhile (fun c => !(c == '|'))).reverse⟩

/-- Title derivation for one heading element (lines 68-71 of the
source): the first descendant span carrying the truncation class gives
its stripped text with every occurrence of `"Section "` replaced by a
newline and the checklist marker, `"N/A"` otherwise; the whitespace
collapse is applied to the result in both cases. -/
def titleOf (heading : Node) : String :=
  transform_spaces
    (match (descendants heading).find? isTitleSpan with
     | some sp => pyReplace (getTextStrip sp) "Section " "\n[ ] S."
     | none => "N/A")

/-- Duration derivation from a located duration `div` (lines 79-94 of
the source): prefer the screen-reader-only span (taking the last of its
descendant spans when there are at least two, the text of the whole
duration `div` otherwise), fall back to the `aria-hidden` span with
pipe splitting, and default to `"N/A"`. -/
def durationOfDiv (d : Node) : String :=
  match (descendants d).find? isSrSpan with
  | some sr =>
    if 2 ≤ ((descendants sr).filter isSpanTag).length then
      match ((descendants sr).filter isSpanTag).getLast? with
      | some last => getTextStrip last
      | none => "N/A"
    else getTextStrip d
  | none =>
    match (descendants d).find? isHiddenSpan with
    | some hs =>
      if (getTextStrip hs).data.contains '|' then
        pyStrip (afterLastPipe (getTextStrip hs))
      else getTextStrip hs
    | none => "N/A"

/-- Duration derivation for a heading whose following document-order
nodes are `rest` (lines 74-96): `find_next` locates the first duration
`div` among them; when one exists the derived duration is
whitespace-collapsed, otherwise the duration is `"N/A"`. -/
def durationFrom (rest : List Node) : String :=
  match rest.find? isDurationDiv with
  | some d => transform_spaces (durationOfDiv d)
  | none => "N/A"

/-- Extraction loop over the document-order node list: each heading
contributes one `(title, duration)` record, with the duration searched
among the nodes after the heading (`find_next`). -/
def extractLoop : List Node → List (String × String)
  | [] => []
  | n :: rest =>
    if isHeading n then (titleOf n, durationFrom rest) :: extractLoop rest
    else extractLoop rest

/-- The `extract_content` method on a parsed document: one record per
heading found by `find_all`, in document order. -/
def extract_content (doc : Node) : List (String × String) :=
  extractLoop (descendants doc)

/-- The mutable state of `HTMLSectionExtractor` that `extract_content`
touches: the `sections` list. -/
structure ExtractorState where
  sections : List (String × String)

/-- The `extract_content` method as a state update: line 61 resets
`self.sections` to the empty list before the loop appends the fresh
records. -/
def extract_content_st (doc : Node) (st : ExtractorState) : ExtractorState :=
  let reset := { st with sections := ([] : List (String × String)) }
  { reset with sections := reset.sections ++ extractLoop (descendants doc) }

/-- Body of the `save_as_txt` write loop with its `enumerate(start=1)`
counter; the counter is tracked but never used by the f-string. -/
def txtLines : Nat → List (String × String) → String
  | _, [] => ""
  | i, (t, d) :: rest => (t ++ " - " ++ d ++ "\n\n") ++ txtLines (i + 1) rest

/-- Content written by `save_as_txt`: the fixed header, a blank line,
then one paragraph per record. -/
def save_as_txt_content (secs : List (String × String)) : String :=
  "Extracted Sections:\n\n" ++ txtLines 1 secs

/-- One field of a `csv.writer` row with tab delimiter and minimal
quoting: the field is quoted (with embedded quotes doubled) exactly when
it contains the delimiter, the quote character, or a line-terminator
character. -/
def csvField (s : String) : String :=
  if s.data.any (fun c => c == '\t' || c == '"' || c == '\r' || c == '\n') then
    "\"" ++ pyReplace s "\"" "\"\"" ++ "\""
  else s

/-- Join strings with the tab delimiter. -/
def joinWithTab : List String → String
  | [] => ""
  | [s] => s
  | s :: rest => s ++ "\t" ++ joinWithTab rest

/-- One `csv.writer` row: tab-joined encoded fields plus the default
`\r\n` line terminator. -/
def csvRow (fields : List String) : String :=
  joinWithTab (fields.map csvField) ++ "\r\n"

/-- Content written by `save_as_tsv`: the header row then one row per
record. -/
def save_as_tsv_content (secs : List (String × String)) : String :=
  csvRow ["Section Title", "Duration"] ++ concatStrings (secs.map (fun r => csvRow [r.1, r.2]))

/-- Prefix test on strings by character list. -/
def strStartsWith (s pre : String) : Bool :=
  pre.data.isPrefixOf s.data

/-- Suffix test on strings by character list. -/
def strEndsWith (s suf : String) : Bool :=
  suf.data.reverse.isPrefixOf s.data.reverse

/-- POSIX `os.path.join` of two components, as used by the loader and
both writers: an absolute second component discards the first. -/
def ospath_join (a b : String) : String :=
  if strStartsWith b "/" then b
  else if a == "" then b
  else if strEndsWith a "/" then a ++ b
  else a ++ "/" ++ b

/-- File system model: an association list from path to contents; the
first binding for a path is its current content. -/
abbrev FS := List (String × String)

/-- Content of the file at `p`, if one exists. -/
def lookupFile (fs : FS) (p : String) : Option String :=
  (fs.find? (fun kv => kv.1 == p)).map (fun kv => kv.2)

/-- Model of `os.path.exists`. -/
def fileExists (fs : FS) (p : String) : Bool :=
  (lookupFile fs p).isSome

/-- Create or overwrite the file at `p`. -/
def writeFile (fs : FS) (p c : String) : FS :=
  (p, c) :: fs

/-- Errors the program can raise. -/
inductive PyError where
  | fileNotFound : String → PyError
deriving DecidableEq

/-- The `open_html` method: the path is joined under the fixed directory
`"udemy_section_name_extractor"` before the existence check and the
read; an empty original path or a missing joined path raises
`FileNotFoundError` naming the original path. -/
def open_html (fs : FS) (file_path : String) : Except PyError String :=
  let full_path := ospath_join "udemy_section_name_extractor" file_path
  match (if file_path == "" then none else lookupFile fs full_path) with
  | some content => Except.ok content
  | none =>
    Except.error (PyError.fileNotFound ("The file '" ++ file_path ++ "' does not exist."))

/-- The `save_as_txt` method: write the text-mode content at the joined
output path. -/
def save_as_txt (fs : FS) (output_file : String) (secs : List (String × String)) : FS :=
  writeFile fs (ospath_join "udemy_section_name_extractor" output_file) (save_as_txt_content secs)

/-- The `save_as_tsv` method: write the tab-delimited content at the
joined output path. -/
def save_as_tsv (fs : FS) (output_file : String) (secs : List (String × String)) : FS :=
  writeFile fs (ospath_join "udemy_section_name_extractor" output_file) (save_as_tsv_content secs)

/-- First positional argument (input path), defaulting to
`"input.html"`. -/
def argInput (argv : List String) : String :=
  match argv[1]? with
  | some a => a
  | none => "input.html"

/-- Second positional argument (output path), defaulting to
`"sections.tsv"`. -/
def argOutput (argv : List String) : String :=
  match argv[2]? with
  | some a => a
  | none => "sections.tsv"

/-- The `__main__` block: read the input, extract, and save with
`save_as_txt` (the entry point never calls `save_as_tsv`).  The HTML
parser is the `parse` parameter; the pair returned is the resulting file
system and either the raised error or the printed confirmation line. -/
def mainRun (parse : String → Node) (fs : FS) (argv : List String) :
    FS × Except PyError String :=
  let input_file := argInput argv
  let output_file := argOutput argv
  match open_html fs input_file with
  | Except.error e => (fs, Except.error e)
  | Except.ok content =>
    (save_as_txt fs output_file (extract_content (parse content)),
     Except.ok ("Extracted sections have been saved to '" ++ output_file ++ "'."))

/-- Bare heading element used to witness C5. -/
def c5h : Node := Node.elem "div" [("data-purpose", "section-heading")] []

/-- Document with a single bare heading used to witness C5. -/
def c5doc : Node := Node.elem "[document]" [] [c5h]

/-- Inner span of the C1 screen-reader element. -/
def c1inner : Node := Node.elem "span" [] [Node.text "5min"]

/-- Screen-reader-only element for C1, holding a single nested span. -/
def c1sr : Node := Node.elem "span" [("data-purpose", "section-duration-sr-only")] [c1inner]

/-- Duration element for C1: the screen-reader element plus extra text
that only the enclosing element sees. -/
def c1d : Node := Node.elem "div" [("data-purpose", "section-duration")] [c1sr, Node.text "extra"]

/-- Bare heading element for C1. -/
def c1h : Node := Node.elem "div" [("data-purpose", "section-heading")] []

/-- Document for C1. -/
def c1doc : Node := Node.elem "[document]" [] [c1h, c1d]

/-- Nodes following the C1 heading in document order. -/
def c1l2 : List Node := [c1d, c1sr, c1inner, Node.text "5min", Node.text "extra"]

/-- Title span for C2 whose text contains `"Section "` in a non-leading
position only. -/
def c2sp : Node :=
  Node.elem "span" [("class", "truncate-with-tooltip--ellipsis--YJw4N")]
    [Node.text "My Section 2"]

/-- Heading element for C2. -/
def c2h : Node := Node.elem "div" [("data-purpose", "section-heading")] [c2sp]

/-- Document for C2. -/
def c2doc : Node := Node.elem "[document]" [] [c2h]

/-- Nodes following the C2 heading in document order. -/
def c2l2 : List Node := [c2sp, Node.text "My Section 2"]

/-- Title span of the C3 scenario. -/
def c3titleSpan : Node :=
  Node.elem "span" [("class", "truncate-with-tooltip--ellipsis--YJw4N")]
    [Node.text "Section 3: Getting Started"]

/-- Heading element of the C3 scenario. -/
def c3h : Node := Node.elem "div" [("data-purpose", "section-heading")] [c3titleSpan]

/-- Screen-reader element of the C3 scenario with two nested spans. -/
def c3sr : Node :=
  Node.elem "span" [("data-purpose", "section-duration-sr-only")]
    [Node.elem "span" [] [Node.text "2 lectures"], Node.elem "span" [] [Node.text "15min"]]

/-- Duration element of the C3 scenario. -/
def c3d : Node := Node.elem "div" [("data-purpose", "section-duration")] [c3sr]

/-- Document of the C3 scenario. -/
def c3doc : Node := Node.elem "[document]" [] [c3h, c3d]

/-- Hidden span for the C4 counterexample: the text after the pipe holds
an internal whitespace run. -/
def c4hs : Node :=
  Node.elem "span" [("aria-hidden", "true")] [Node.text " Preview | 05:  12 "]

/-- Duration element for the C4 counterexample. -/
def c4d : Node := Node.elem "div" [("data-purpose", "section-duration")] [c4hs]

/-- Bare heading element for the C4 counterexample. -/
def c4h : Node := Node.elem "div" [("data-purpose", "section-heading")] []

/-- Document for the C4 counterexample. -/
def c4doc : Node := Node.elem "[document]" [] [c4h, c4d]

/-- Hidden span for the C4 witness, with the scenario text from the
specification. -/
def c4whs : Node :=
  Node.elem "span" [("aria-hidden", "true")] [Node.text "Preview | 05:12"]

/-- Duration element for the C4 witness. -/
def c4wd : Node := Node.elem "div" [("data-purpose", "section-duration")] [c4whs]

/-- Bare heading element for the C4 witness. -/
def c4wh : Node := Node.elem "div" [("data-purpose", "section-heading")] []

/-- Document for the C4 witness. -/
def c4wdoc : Node := Node.elem "[document]" [] [c4wh, c4wd]

/-- Nodes following the C4 witness heading in document order. -/
def c4wl2 : List Node := [c4wd, c4whs, Node.text "Preview | 05:12"]

/-- Trivial parser fixture used by entry-point witnesses. -/
def parse0 : String → Node := fun _ => Node.elem "[document]" [] []

/-- File system fixture for the C10 witness: the default input file is
present under the joined directory. -/
def fs10 : FS := [("udemy_section_name_extractor/input.html", "ignored")]

/-- File system fixture for the C9 witness. -/
def fs9 : FS := [("udemy_section_name_extractor/a.html", "hi")]

/-- Scanning inside a run behaves like scanning from scratch after the
run is dropped. -/
theorem collapseAux_true_eq (cs : List Char) :
    collapseAux true cs = collapseAux false (cs.dropWhile isPySpace) := by
  induction cs with
  | nil => rfl
  | cons c cs ih =>
    by_cases h : isPySpace c = true
    · rw [List.dropWhile_cons_of_pos h]
      simpa [collapseAux, h] using ih
    · rw [List.dropWhile_cons_of_neg (by simpa using h)]
      simp [collapseAux, h]

/-- The scanner from the source equals the run-based reference
formulation. -/
theorem collapseAux_false_eq_spec (l : List Char) : collapseAux false l = collapseSpec l := by
  induction l using collapseSpec.induct with
  | case1 => simp [collapseAux, collapseSpec]
  | case2 c cs h ih =>
    rw [collapseSpec]
    simp [collapseAux, h, collapseAux_true_eq, ih]
  | case3 c cs h ih =>
    rw [collapseSpec]
    simp [collapseAux, h, ih]

/-- After a run has been entered, the scanner's output starts with a
non-whitespace character (or is empty). -/
theorem collapseAux_true_head (cs : List Char) :
    collapseAux true cs = [] ∨
      ∃ d t, collapseAux true cs = d :: t ∧ isPySpace d = false := by
  induction cs with
  | nil => exact Or.inl rfl
  | cons c cs ih =>
    by_cases h : isPySpace c = true
    · simpa [collapseAux, h] using ih
    · exact Or.inr ⟨c, collapseAux false cs, by simp [collapseAux, h], by simpa using h⟩

/-- The scanner's output is always in collapsed form. -/
theorem normedChars_collapseAux (l : List Char) : ∀ b, normedChars (collapseAux b l) = true := by
  induction l with
  | nil => intro b; rfl
  | cons c cs ih =>
    intro b
    by_cases h : isPySpace c = true
    · cases b with
      | true => simpa [collapseAux, h] using ih true
      | false =>
        simp only [collapseAux, h, if_true]
        rcases collapseAux_true_head cs with h0 | ⟨d, t, heq, hd⟩
        · rw [h0]; rfl
        · rw [heq]
          have hn := ih true
          rw [heq] at hn
          simp [normedChars, hd, hn]
    · have hfalse : isPySpace c = false := by simpa using h
      have hrest := ih false
      cases b with
      | true =>
        simp only [collapseAux, hfalse, Bool.false_eq_true, if_false]
        cases hcoll : collapseAux false cs with
        | nil => simp [normedChars, hfalse]
        | cons d t =>
          rw [hcoll] at hrest
          simp [normedChars, hfalse, hrest]
      | false =>
        simp only [collapseAux, hfalse, Bool.false_eq_true, if_false]
        cases hcoll : collapseAux false cs with
        | nil => simp [normedChars, hfalse]
        | cons d t =>
          rw [hcoll] at hrest
          simp [normedChars, hfalse, hrest]

/-- The scanner is the identity on lists in collapsed form. -/
theorem collapseAux_of_normed : ∀ l : List Char, normedChars l = true → collapseAux false l = l
  | [], _ => rfl
  | [c], h => by
    by_cases hc : isPySpace c = true
    · have hsp : c = ' ' := by
        simp [normedChars, hc] at h
        exact h
      subst hsp
      rfl
    · simp [collapseAux, hc]
  | c :: d :: t, h => by
    have h1 : (!isPySpace c || (c == ' ' && !isPySpace d)) = true := by
      simp [normedChars] at h
      rcases h with ⟨ha, _⟩
      simpa [Bool.or_eq_true, Bool.and_eq_true] using ha
    have h2 : normedChars (d :: t) = true := by
      simp [normedChars] at h ⊢
      exact h.2
    by_cases hc : isPySpace c = true
    · have hcd : c = ' ' ∧ isPySpace d = false := by
        simp [hc, Bool.or_eq_true, Bool.and_eq_true] at h1
        exact ⟨h1.1, h1.2⟩
      obtain ⟨hc', hd⟩ := hcd
      subst hc'
      have ih2 := collapseAux_of_normed (d :: t) h2
      simp only [collapseAux, hd, Bool.false_eq_true, if_false] at ih2
      have ht : collapseAux false t = t := by
        exact List.cons.inj ih2 |>.2
      simp [collapseAux, hd, collapseAux_true_eq, ht]
    · have hcf : isPySpace c = false := by simpa using hc
      have ih2 := collapseAux_of_normed (d :: t) h2
      calc collapseAux false (c :: d :: t) = c :: collapseAux false (d :: t) := by
            simp [collapseAux, hcf]
        _ = c :: d :: t := by rw [ih2]

/-- Idempotence of the scanner. -/
theorem collapseAux_idem (l : List Char) :
    collapseAux false (collapseAux false l) = collapseAux false l :=
  collapseAux_of_normed _ (normedChars_collapseAux l false)

/-- C6: the whitespace-collapse transform replaces each maximal run of
one-or-more whitespace characters with exactly one ASCII space and keeps
everything else (in particular it performs no extra trimming), as stated
by the run-based reference formulation `collapseSpec`; and it is
idempotent. -/
theorem c6_transform_spaces_spec_idem (s : String) :
    transform_spaces s = ⟨collapseSpec s.data⟩ ∧
    transform_spaces (transform_spaces s) = transform_spaces s := by
  constructor
  · show (⟨collapseAux false s.data⟩ : String) = ⟨collapseSpec s.data⟩
    rw [collapseAux_false_eq_spec]
  · show (⟨collapseAux false (collapseAux false s.data)⟩ : String) = ⟨collapseAux false s.data⟩
    rw [collapseAux_idem]

/-- Position of the record that `extractLoop` emits for a given heading:
the heading at a document-order position preceded by `l₁` produces the
record number `(l₁.filter isHeading).length`, holding its title and the
duration searched among the nodes after it. -/
theorem extractLoop_getElem :
    ∀ (l₁ : List Node) (n : Node) (l₂ : List Node), isHeading n = true →
      (extractLoop (l₁ ++ n :: l₂))[(l₁.filter isHeading).length]? =
        some (titleOf n, durationFrom l₂)
  | [], n, l₂, h => by simp [extractLoop, h]
  | m :: t, n, l₂, h => by
    by_cases hm : isHeading m = true
    · simp only [List.cons_append, extractLoop, hm, if_true, List.filter_cons_of_pos hm,
        List.length_cons, List.getElem?_cons_succ]
      exact extractLoop_getElem t n l₂ h
    · have hmf : isHeading m = false := by simpa using hm
      simp only [List.cons_append, extractLoop, hmf, Bool.false_eq_true, if_false,
        List.filter_cons_of_neg hm]
      exact extractLoop_getElem t n l₂ h

/-- Titles of the extracted records are the titles of the headings, in
document order. -/
theorem extractLoop_map_fst : ∀ l : List Node,
    (extractLoop l).map Prod.fst = (l.filter isHeading).map titleOf
  | [] => rfl
  | n :: rest => by
    by_cases h : isHeading n = true
    · simp [extractLoop, h, extractLoop_map_fst rest]
    · have hf : isHeading n = false := by simpa using h
      simp [extractLoop, hf, extractLoop_map_fst rest]

/-- One record per heading. -/
theorem extractLoop_length (l : List Node) :
    (extractLoop l).length = (l.filter isHeading).length := by
  have h := congrArg List.length (extractLoop_map_fst l)
  simpa using h

/-- The enumeration counter of the text-writer loop never influences the
written text. -/
theorem txtLines_eq_concat : ∀ (i : Nat) (secs : List (String × String)),
    txtLines i secs = concatStrings (secs.map (fun r => r.1 ++ " - " ++ r.2 ++ "\n\n"))
  | _, [] => rfl
  | i, (t, d) :: rest => by
    simp [txtLines, concatStrings, txtLines_eq_concat (i + 1) rest]

/-- C7: extraction produces exactly one record per matched heading, in
document order (witnessed by the title projection); the text output is
the header plus exactly one paragraph per record; and the state update
resets the collection, so the result never depends on previously
accumulated sections. -/
theorem c7_count_order_reset (doc : Node) (st : ExtractorState) :
    (extract_content_st doc st).sections = extract_content doc ∧
    (extract_content doc).length = ((descendants doc).filter isHeading).length ∧
    (extract_content doc).map Prod.fst = ((descendants doc).filter isHeading).map titleOf ∧
    save_as_txt_content (extract_content doc) =
      "Extracted Sections:\n\n" ++
        concatStrings ((extract_content doc).map (fun r => r.1 ++ " - " ++ r.2 ++ "\n\n")) ∧
    ((extract_content doc).map (fun r => r.1 ++ " - " ++ r.2 ++ "\n\n")).length =
      ((descendants doc).filter isHeading).length := by
  refine ⟨?_, ?_, ?_, ?_, ?_⟩
  · simp [extract_content_st, extract_content]
  · exact extractLoop_length _
  · exact extractLoop_map_fst _
  · show "Extracted Sections:\n\n" ++ txtLines 1 (extract_content doc) = _
    rw [txtLines_eq_concat]
  · rw [List.length_map]
    exact extractLoop_length _

/-- C5: every heading yields a record; a heading without the title span
gets title exactly `"N/A"`, and a heading with no later duration marker
gets duration exactly `"N/A"` (extraction is total, so no lookup ever
raises). -/
theorem c5_missing_markers_na (doc : Node) (l₁ : List Node) (n : Node) (l₂ : List Node)
    (hdec : descendants doc = l₁ ++ n :: l₂) (hn : isHeading n = true) :
    (extract_content doc)[(l₁.filter isHeading).length]? = some (titleOf n, durationFrom l₂) ∧
    ((descendants n).find? isTitleSpan = none → titleOf n = "N/A") ∧
    (l₂.find? isDurationDiv = none → durationFrom l₂ = "N/A") := by
  refine ⟨?_, ?_, ?_⟩
  · rw [extract_content, hdec]
    exact extractLoop_getElem l₁ n l₂ hn
  · intro h
    simp only [titleOf, h]
    rfl
  · intro h
    simp [durationFrom, h]

/-- Witness for C5 at a heading with no title span and no following
duration marker. -/
theorem c5_witness :
    (descendants c5h).find? isTitleSpan = none ∧
    ([] : List Node).find? isDurationDiv = none ∧
    (extract_content c5doc)[0]? = some ("N/A", "N/A") := by
  refine ⟨rfl, rfl, ?_⟩
  have h := c5_missing_markers_na c5doc [] c5h [] rfl rfl
  have h1 := h.1
  rw [h.2.1 rfl, h.2.2 rfl] at h1
  exact h1

/-- C1 (amended): for a heading whose next duration marker holds a
screen-reader-only element with fewer than two nested spans, the emitted
duration is the whitespace-collapsed stripped text of the whole
enclosing duration element — line 85 of the source reads
`duration_div.get_text(strip=True)`, not the screen-reader element's
text. -/
theorem c1_duration_div_text_when_sr_short (doc : Node) (l₁ : List Node) (n : Node)
    (l₂ : List Node) (d sr : Node)
    (hdec : descendants doc = l₁ ++ n :: l₂) (hn : isHeading n = true)
    (hd : l₂.find? isDurationDiv = some d)
    (hsr : (descendants d).find? isSrSpan = some sr)
    (hcount : ((descendants sr).filter isSpanTag).length < 2) :
    (extract_content doc)[(l₁.filter isHeading).length]? =
      some (titleOf n, transform_spaces (getTextStrip d)) := by
  have h1 := extractLoop_getElem l₁ n l₂ hn
  have hdur : durationFrom l₂ = transform_spaces (durationOfDiv d) := by
    rw [durationFrom, hd]
  have hdd : durationOfDiv d = getTextStrip d := by
    simp only [durationOfDiv, hsr]
    rw [if_neg (by omega)]
  rw [hdur, hdd] at h1
  rw [extract_content, hdec]
  exact h1

/-- Counterexample to C1 as stated: in `c1doc` the screen-reader element
holds one nested span, its stripped text is `"5min"`, yet the emitted
duration is `"5minextra"` — the text of the whole enclosing duration
element, extra fragment included. -/
theorem c1_counterexample :
    extract_content c1doc = [("N/A", "5minextra")] ∧
    getTextStrip c1sr = "5min" ∧
    ("5minextra" : String) ≠ "5min" := by
  refine ⟨by decide, by decide, by decide⟩

/-- Witness for the amended C1 at `c1doc`. -/
theorem c1_witness :
    descendants c1doc = [] ++ c1h :: c1l2 ∧
    isHeading c1h = true ∧
    c1l2.find? isDurationDiv = some c1d ∧
    (descendants c1d).find? isSrSpan = some c1sr ∧
    ((descendants c1sr).filter isSpanTag).length < 2 ∧
    (extract_content c1doc)[0]? = some (titleOf c1h, transform_spaces (getTextStrip c1d)) := by
  refine ⟨rfl, rfl, rfl, rfl, by decide, ?_⟩
  exact c1_duration_div_text_when_sr_short c1doc [] c1h c1l2 c1d c1sr rfl rfl rfl rfl
    (by decide)

/-- C3 (amended): on the specification's scenario document the extracted
record is `(" [ ] S.3: Getting Started", "15min")` — the duration is
`"15min"` as claimed, and the whitespace collapse turns the inserted
line break into one space while the checklist marker `"[ ] S."` stays in
the title. -/
theorem c3_scenario_record :
    extract_content c3doc = [(" [ ] S.3: Getting Started", "15min")] := by
  decide

/-- Counterexample to C3 as stated: the literal title extracted from the
scenario document is `" [ ] S.3: Getting Started"`, not the claimed
`" S.3: Getting Started"`. -/
theorem c3_counterexample :
    (extract_content c3doc).map Prod.fst = [" [ ] S.3: Getting Started"] ∧
    (" [ ] S.3: Getting Started" : String) ≠ " S.3: Getting Started" := by
  refine ⟨by decide, by decide⟩

/-- Characters before the first pipe are kept by the pipe-splitting
scan. -/
theorem takeWhile_until_pipe :
    ∀ (l r : List Char), (∀ c ∈ l, (c == '|') = false) →
      (l ++ '|' :: r).takeWhile (fun c => !(c == '|')) = l
  | [], r, _ => by simp [List.takeWhile_cons]
  | c :: l, r, h => by
    have hc := h c (List.mem_cons_self c l)
    simp [List.takeWhile_cons, hc,
      takeWhile_until_pipe l r (fun d hd => h d (List.mem_cons_of_mem c hd))]

/-- The suffix after the last pipe is exactly the part after the last
`'|'` of the string. -/
theorem afterLastPipe_append (a b : List Char) (hb : '|' ∉ b) :
    afterLastPipe ⟨a ++ '|' :: b⟩ = ⟨b⟩ := by
  have hmem : ∀ c ∈ b.reverse, (c == '|') = false := by
    intro c hc
    rw [List.mem_reverse] at hc
    rw [beq_eq_false_iff_ne]
    intro he
    subst he
    exact hb hc
  show (⟨((a ++ '|' :: b).reverse.takeWhile (fun c => !(c == '|'))).reverse⟩ : String) = ⟨b⟩
  rw [List.reverse_append, List.reverse_cons, List.append_assoc, List.singleton_append]
  rw [takeWhile_until_pipe b.reverse a.reverse hmem]
  rw [List.reverse_reverse]

/-- C4 (amended): for a heading whose next duration marker has no
screen-reader element but has an `aria-hidden` span, the emitted
duration is the whitespace-collapsed stripped text after the last pipe
(the whole stripped text when no pipe is present); `afterLastPipe`
really is the suffix after the last pipe. -/
theorem c4_hidden_span_pipe (doc : Node) (l₁ : List Node) (n : Node) (l₂ : List Node)
    (d hs : Node)
    (hdec : descendants doc = l₁ ++ n :: l₂) (hn : isHeading n = true)
    (hd : l₂.find? isDurationDiv = some d)
    (hsr : (descendants d).find? isSrSpan = none)
    (hhs : (descendants d).find? isHiddenSpan = some hs) :
    (extract_content doc)[(l₁.filter isHeading).length]? =
      some (titleOf n,
        transform_spaces
          (if (getTextStrip hs).data.contains '|' = true then
            pyStrip (afterLastPipe (getTextStrip hs))
          else getTextStrip hs)) ∧
    (∀ (a b : List Char), '|' ∉ b → afterLastPipe ⟨a ++ '|' :: b⟩ = ⟨b⟩) := by
  constructor
  · have h1 := extractLoop_getElem l₁ n l₂ hn
    have hdur : durationFrom l₂ = transform_spaces (durationOfDiv d) := by
      rw [durationFrom, hd]
    have hdd : durationOfDiv d =
        if (getTextStrip hs).data.contains '|' = true then
          pyStrip (afterLastPipe (getTextStrip hs))
        else getTextStrip hs := by
      simp only [durationOfDiv, hsr, hhs]
    rw [hdur, hdd] at h1
    rw [extract_content, hdec]
    exact h1
  · exact fun a b hb => afterLastPipe_append a b hb

/-- Counterexample to C4 as stated: in `c4doc` the hidden span's
stripped text is `"Preview | 05:  12"`, whose trimmed substring after
the last pipe is `"05:  12"`, yet the emitted duration is the further
collapsed `"05: 12"`. -/
theorem c4_counterexample :
    extract_content c4doc = [("N/A", "05: 12")] ∧
    getTextStrip c4hs = "Preview | 05:  12" ∧
    pyStrip (afterLastPipe (getTextStrip c4hs)) = "05:  12" ∧
    ("05: 12" : String) ≠ "05:  12" := by
  refine ⟨by decide, by decide, by decide, by decide⟩

/-- Witness for the amended C4 on the specification's own scenario,
where the emitted duration is `"05:12"`. -/
theorem c4_witness :
    descendants c4wdoc = [] ++ c4wh :: c4wl2 ∧
    c4wl2.find? isDurationDiv = some c4wd ∧
    (descendants c4wd).find? isSrSpan = none ∧
    (descendants c4wd).find? isHiddenSpan = some c4whs ∧
    (extract_content c4wdoc)[0]? =
      some (titleOf c4wh,
        transform_spaces
          (if (getTextStrip c4whs).data.contains '|' = true then
            pyStrip (afterLastPipe (getTextStrip c4whs))
          else getTextStrip c4whs)) ∧
    (extract_content c4wdoc)[0]? = some ("N/A", "05:12") := by
  refine ⟨rfl, rfl, rfl, rfl, ?_, by decide⟩
  exact (c4_hidden_span_pipe c4wdoc [] c4wh c4wl2 c4wd c4whs rfl rfl rfl rfl rfl).1

/-- The fuelled replace scanner does not depend on the fuel, as long as
the fuel bounds the length of the list. -/
theorem replaceAllFuel_congr (pat repl : List Char) :
    ∀ (f₁ f₂ : Nat) (l : List Char), l.length ≤ f₁ → l.length ≤ f₂ →
      replaceAllFuel pat repl f₁ l = replaceAllFuel pat repl f₂ l := by
  intro f₁
  induction f₁ with
  | zero =>
    intro f₂ l h1 h2
    have hl : l = [] := List.length_eq_zero.mp (Nat.le_zero.mp h1)
    subst hl
    cases f₂ <;> rfl
  | succ f ih =>
    intro f₂ l h1 h2
    cases l with
    | nil => cases f₂ <;> rfl
    | cons c cs =>
      cases f₂ with
      | zero => exact absurd h2 (by simp)
      | succ g =>
        have hc1 : cs.length ≤ f := by
          have := h1
          simp only [List.length_cons] at this
          omega
        have hc2 : cs.length ≤ g := by
          have := h2
          simp only [List.length_cons] at this
          omega
        simp only [replaceAllFuel]
        by_cases hp : (pat.isPrefixOf (c :: cs) && !pat.isEmpty) = true
        · rw [if_pos hp, if_pos hp]
          have hd1 : (cs.drop (pat.length - 1)).length ≤ f := by
            rw [List.length_drop]
            omega
          have hd2 : (cs.drop (pat.length - 1)).length ≤ g := by
            rw [List.length_drop]
            omega
          rw [ih g (cs.drop (pat.length - 1)) hd1 hd2]
        · rw [if_neg hp, if_neg hp]
          rw [ih g cs hc1 hc2]

/-- One unfolding step of the replace scan, phrased on `replaceAllL`. -/
theorem replaceAllL_cons_step (pat repl : List Char) (c : Char) (cs : List Char) :
    replaceAllL pat repl (c :: cs) =
      if pat.isPrefixOf (c :: cs) && !pat.isEmpty then
        repl ++ replaceAllL pat repl (cs.drop (pat.length - 1))
      else c :: replaceAllL pat repl cs := by
  rw [replaceAllL]
  simp only [List.length_cons]
  show (if pat.isPrefixOf (c :: cs) && !pat.isEmpty then
      repl ++ replaceAllFuel pat repl cs.length (cs.drop (pat.length - 1))
    else c :: replaceAllFuel pat repl cs.length cs) = _
  by_cases hp : (pat.isPrefixOf (c :: cs) && !pat.isEmpty) = true
  · rw [if_pos hp, if_pos hp]
    rw [replaceAllFuel_congr pat repl cs.length (cs.drop (pat.length - 1)).length
      (cs.drop (pat.length - 1)) (by rw [List.length_drop]; omega) (Nat.le_refl _)]
    rfl
  · rw [if_neg hp, if_neg hp]
    rfl

/-- When the first occurrence of the non-empty pattern starts exactly
after `a`, the replace scan keeps `a`, emits the replacement, and
continues on the remainder. -/
theorem replaceAllL_first (pat repl : List Char) (hp : pat ≠ []) :
    ∀ (a b : List Char),
      (∀ i, i < a.length → pat.isPrefixOf ((a ++ pat ++ b).drop i) = false) →
      replaceAllL pat repl (a ++ pat ++ b) = a ++ repl ++ replaceAllL pat repl b := by
  intro a
  induction a with
  | nil =>
    intro b _
    obtain ⟨p, ps, hpat⟩ : ∃ p ps, pat = p :: ps := by
      cases pat with
      | nil => exact absurd rfl hp
      | cons p ps => exact ⟨p, ps, rfl⟩
    subst hpat
    simp only [List.nil_append, List.cons_append]
    rw [replaceAllL_cons_step]
    have hpre : ((p :: ps).isPrefixOf (p :: (ps ++ b)) && !(p :: ps).isEmpty) = true := by
      simp [List.isPrefixOf_iff_prefix]
    rw [if_pos hpre]
    simp only [List.length_cons, Nat.succ_sub_one]
    rw [List.drop_left]
  | cons c a' ih =>
    intro b h
    have h0 := h 0 (by simp)
    rw [List.drop_zero] at h0
    have hcond : (pat.isPrefixOf ((c :: a') ++ pat ++ b) && !pat.isEmpty) = true → False := by
      intro hx
      rw [Bool.and_eq_true] at hx
      rw [h0] at hx
      exact Bool.false_ne_true hx.1
    simp only [List.cons_append] at h0 ⊢
    rw [replaceAllL_cons_step]
    rw [if_neg (by simpa [h0] using hcond)]
    have h' : ∀ i, i < a'.length → pat.isPrefixOf ((a' ++ pat ++ b).drop i) = false := by
      intro i hi
      have := h (i + 1) (by simpa using Nat.succ_lt_succ hi)
      simpa [List.drop_succ_cons] using this
    rw [ih b h']

/-- C2 (amended): the `"Section "`-to-checklist rewrite is a plain
`str.replace`, so it fires on every occurrence of `"Section "` in the
trimmed title text, not only on a leading prefix: when the first
occurrence starts right after `a`, the emitted title is the collapse of
`a`, the checklist marker, and the rewritten remainder. -/
theorem c2_section_rewrite_all_occurrences (doc : Node) (l₁ : List Node) (n : Node)
    (l₂ : List Node) (sp : Node) (a b : List Char)
    (hdec : descendants doc = l₁ ++ n :: l₂) (hn : isHeading n = true)
    (hsp : (descendants n).find? isTitleSpan = some sp)
    (htext : (getTextStrip sp).data = a ++ "Section ".data ++ b)
    (hfirst : ∀ i, i < a.length →
      "Section ".data.isPrefixOf ((a ++ "Section ".data ++ b).drop i) = false) :
    (extract_content doc)[(l₁.filter isHeading).length]? =
      some (transform_spaces
          ⟨a ++ "\n[ ] S.".data ++ replaceAllL "Section ".data "\n[ ] S.".data b⟩,
        durationFrom l₂) := by
  have h1 := extractLoop_getElem l₁ n l₂ hn
  have hdata : replaceAllL "Section ".data "\n[ ] S.".data (getTextStrip sp).data =
      a ++ "\n[ ] S.".data ++ replaceAllL "Section ".data "\n[ ] S.".data b := by
    rw [htext]
    exact replaceAllL_first "Section ".data "\n[ ] S.".data (by decide) a b hfirst
  have htit : titleOf n =
      transform_spaces
        ⟨a ++ "\n[ ] S.".data ++ replaceAllL "Section ".data "\n[ ] S.".data b⟩ := by
    simp only [titleOf, hsp]
    simp only [pyReplace]
    rw [hdata]
  rw [htit] at h1
  rw [extract_content, hdec]
  exact h1

/-- Counterexample to C2 as stated: the title text `"My Section 2"` does
not begin with `"Section "`, so under the claim it would stay unchanged,
yet the code rewrites its inner occurrence and emits `"My [ ] S.2"`. -/
theorem c2_counterexample :
    extract_content c2doc = [("My [ ] S.2", "N/A")] ∧
    getTextStrip c2sp = "My Section 2" ∧
    ("My [ ] S.2" : String) ≠ transform_spaces "My Section 2" := by
  refine ⟨by decide, by decide, by decide⟩

/-- Witness for the amended C2 at `c2doc`, where the only occurrence of
`"Section "` starts after `"My "`. -/
theorem c2_witness :
    descendants c2doc = [] ++ c2h :: c2l2 ∧
    (descendants c2h).find? isTitleSpan = some c2sp ∧
    (getTextStrip c2sp).data = "My ".data ++ "Section ".data ++ "2".data ∧
    (extract_content c2doc)[0]? =
      some (transform_spaces
          ⟨"My ".data ++ "\n[ ] S.".data ++
            replaceAllL "Section ".data "\n[ ] S.".data "2".data⟩,
        durationFrom c2l2) := by
  refine ⟨rfl, rfl, by decide, ?_⟩
  exact c2_section_rewrite_all_occurrences c2doc [] c2h c2l2 c2sp "My ".data "2".data
    rfl rfl rfl (by decide) (by decide)

/-- C8: when the input path is empty or the joined path names no
existing file, the run fails with the `FileNotFoundError` naming the
original input path, and the file system is unchanged — no output file
is produced and, the parser being arbitrary, extraction is never
reached. -/
theorem c8_missing_input_fatal (parse : String → Node) (fs : FS) (argv : List String)
    (h : argInput argv = "" ∨
      lookupFile fs (ospath_join "udemy_section_name_extractor" (argInput argv)) = none) :
    mainRun parse fs argv =
      (fs, Except.error (PyError.fileNotFound
        ("The file '" ++ argInput argv ++ "' does not exist."))) := by
  have hopen : open_html fs (argInput argv) =
      Except.error (PyError.fileNotFound
        ("The file '" ++ argInput argv ++ "' does not exist.")) := by
    rcases h with h | h
    · simp [open_html, h]
    · simp [open_html, h]
  simp [mainRun, hopen]

/-- Witness for C8: empty file system, default arguments. -/
theorem c8_witness :
    lookupFile ([] : FS) (ospath_join "udemy_section_name_extractor" (argInput ["main.py"])) =
      none ∧
    mainRun parse0 [] ["main.py"] =
      ([], Except.error (PyError.fileNotFound "The file 'input.html' does not exist.")) := by
  refine ⟨rfl, ?_⟩
  exact c8_missing_input_fatal parse0 [] ["main.py"] (Or.inr rfl)

/-- C9 (amended): for a relative path, loader and writers resolve it by
joining it under the fixed directory before any check, read or write,
and the loader's error names the original path; absolute paths bypass
the directory (see the counterexample). -/
theorem c9_paths_joined (fs : FS) (p : String) (secs : List (String × String))
    (hrel : strStartsWith p "/" = false) :
    ospath_join "udemy_section_name_extractor" p = "udemy_section_name_extractor/" ++ p ∧
    save_as_txt fs p secs =
      writeFile fs ("udemy_section_name_extractor/" ++ p) (save_as_txt_content secs) ∧
    save_as_tsv fs p secs =
      writeFile fs ("udemy_section_name_extractor/" ++ p) (save_as_tsv_content secs) ∧
    ((p = "" ∨ lookupFile fs ("udemy_section_name_extractor/" ++ p) = none) →
      open_html fs p = Except.error (PyError.fileNotFound
        ("The file '" ++ p ++ "' does not exist."))) ∧
    (∀ c, lookupFile fs ("udemy_section_name_extractor/" ++ p) = some c → p ≠ "" →
      open_html fs p = Except.ok c) := by
  have hjoin : ospath_join "udemy_section_name_extractor" p =
      "udemy_section_name_extractor/" ++ p := by
    rw [ospath_join]
    rw [if_neg (by simp [hrel])]
    rw [if_neg (by decide)]
    rw [if_neg (by decide)]
    rfl
  refine ⟨hjoin, ?_, ?_, ?_, ?_⟩
  · rw [save_as_txt, hjoin]
  · rw [save_as_tsv, hjoin]
  · intro h
    rcases h with h | h
    · simp [open_html, h]
    · rw [open_html]
      rw [hjoin, h]
      simp
  · intro c hc hne
    rw [open_html]
    rw [hjoin, hc]
    simp [hne]

/-- Counterexample to C9 as stated: with the absolute output path
`"/out.txt"` the text writer writes at `"/out.txt"` itself, which is not
under the fixed directory. -/
theorem c9_counterexample :
    save_as_txt [] "/out.txt" [] = [("/out.txt", "Extracted Sections:\n\n")] ∧
    strStartsWith "/out.txt" "udemy_section_name_extractor" = false := by
  refine ⟨by decide, by decide⟩

/-- Witness for the amended C9 at the relative path `"a.html"`. -/
theorem c9_witness :
    strStartsWith "a.html" "/" = false ∧
    lookupFile fs9 ("udemy_section_name_extractor/" ++ "a.html") = some "hi" ∧
    open_html fs9 "a.html" = Except.ok "hi" := by
  refine ⟨by decide, rfl, ?_⟩
  exact (c9_paths_joined fs9 "a.html" [] (by decide)).2.2.2.2 "hi" rfl (by decide)

/-- The text-mode output never coincides with the tabular output: the
headers already differ at their first character. -/
theorem save_as_txt_content_ne_tsv (secs : List (String × String)) :
    save_as_txt_content secs ≠ save_as_tsv_content secs := by
  intro h
  have h1 : save_as_txt_content secs = "Extracted Sections:\n\n" ++ txtLines 1 secs := rfl
  have hrow : csvRow ["Section Title", "Duration"] = "Section Title\tDuration\r\n" := by decide
  have h2 : save_as_tsv_content secs =
      "Section Title\tDuration\r\n" ++
        concatStrings (secs.map (fun r => csvRow [r.1, r.2])) := by
    rw [save_as_tsv_content, hrow]
  rw [h1, h2] at h
  have hd := congrArg String.data h
  rw [String.data_append, String.data_append] at hd
  have e1 : "Extracted Sections:\n\n".data = 'E' :: "xtracted Sections:\n\n".data := by decide
  have e2 : "Section Title\tDuration\r\n".data = 'S' :: "ection Title\tDuration\r\n".data := by
    decide
  rw [e1, e2, List.cons_append, List.cons_append] at hd
  exact absurd ((List.cons.injEq _ _ _ _).mp hd).1 (by decide)

/-- C10: whenever the loader succeeds, the entry point writes the
text-mode rendering — header line, blank line, one paragraph per
record — at the joined output path, whatever the output filename
(including the default `"sections.tsv"`); the enumeration index never
reaches the output, and the tabular rendering is never what gets
written, since it differs from the text rendering on every record
list. -/
theorem c10_entry_point_text_mode (parse : String → Node) (fs : FS) (argv : List String)
    (content : String) (hopen : open_html fs (argInput argv) = Except.ok content) :
    mainRun parse fs argv =
      (writeFile fs (ospath_join "udemy_section_name_extractor" (argOutput argv))
        ("Extracted Sections:\n\n" ++
          concatStrings ((extract_content (parse content)).map
            (fun r => r.1 ++ " - " ++ r.2 ++ "\n\n"))),
       Except.ok ("Extracted sections have been saved to '" ++ argOutput argv ++ "'.")) ∧
    (∀ (i : Nat) (secs : List (String × String)), txtLines i secs = txtLines 1 secs) ∧
    (∀ secs : List (String × String), save_as_txt_content secs ≠ save_as_tsv_content secs) := by
  refine ⟨?_, ?_, ?_⟩
  · simp only [mainRun, hopen]
    simp only [save_as_txt, save_as_txt_content]
    rw [txtLines_eq_concat]
  · intro i secs
    rw [txtLines_eq_concat, txtLines_eq_concat]
  · exact save_as_txt_content_ne_tsv

/-- Witness for C10 with the default arguments and a present input
file. -/
theorem c10_witness :
    open_html fs10 (argInput ["main.py"]) = Except.ok "ignored" ∧
    mainRun parse0 fs10 ["main.py"] =
      (writeFile fs10 (ospath_join "udemy_section_name_extractor" (argOutput ["main.py"]))
        ("Extracted Sections:\n\n" ++
          concatStrings ((extract_content (parse0 "ignored")).map
            (fun r => r.1 ++ " - " ++ r.2 ++ "\n\n"))),
       Except.ok ("Extracted sections have been saved to '" ++ argOutput ["main.py"] ++ "'.")) := by
  refine ⟨rfl, ?_⟩
  exact (c10_entry_point_text_mode parse0 fs10 ["main.py"] "ignored" rfl).1
